import Mathlib

/-!
Shallow embedding of the text-buffer and edit-history core of the
MasterK0927/textEditorinC editor.

The repository ships two variants of the editor operations:
`c-implementation/` (clamping variant) and `src/` (unclamped variant).
The clamping variant is embedded at top level with the source's names;
the `src/` variant's differing functions are embedded in namespace `Src`.

Machine integers: the C `int` fields that are always non-negative
(`length`, `capacity`, stack tops) are modelled as `Nat`; cursor
coordinates and selection offsets, which flow through signed `int`
arithmetic before clamping, are modelled as `Int`.  C strings are
modelled as the list of characters strictly before the terminator.
-/

/-- MAX_BUFFER from editor.h. -/
def MAX_BUFFER : Nat := 1000000

/-- MAX_HISTORY from editor.h. -/
def MAX_HISTORY : Nat := 100

/-- STATUS_HEIGHT from editor.h. -/
def STATUS_HEIGHT : Int := 1

/-- Cursor from editor.h: screen coordinates, C ints. -/
structure Cursor where
  x : Int
  y : Int
deriving DecidableEq, Repr

/-- Buffer from editor.h: content (chars before the terminator), length, capacity. -/
structure Buffer where
  content : List Char
  length : Nat
  capacity : Nat
deriving DecidableEq, Repr

/-- EditorState from editor.h, together with the globals of editor_ops.c
(`clipboard`) and undo.c (`undoStack`/`undoTop`, `redoStack`/`redoTop`,
modelled as lists with head = top of stack). -/
structure EditorState where
  buffer : Buffer
  cursor : Cursor
  scroll_offset : Int
  clipboard : List Char
  undoStack : List (List Char)
  redoStack : List (List Char)
deriving DecidableEq, Repr

/-- The while-loop `while (need >= c) c *= 2;` used by pasteAtCursor, undo
and redo to grow capacity.  A zero capacity would loop forever in C; the
model returns 0 there (unreachable from initBuffer). -/
def growCap (need : Nat) (c : Nat) : Nat :=
  if h : c = 0 then 0
  else if need ≥ c then growCap need (2 * c) else c
termination_by need + 1 - c
decreasing_by omega

/-- Snapshot truncation in saveUndoState/undo/redo (undo.c): a copy of the
content, cut to MAX_BUFFER - 1 characters when it is at least MAX_BUFFER long. -/
def snap (c : List Char) : List Char :=
  if c.length ≥ MAX_BUFFER then c.take (MAX_BUFFER - 1) else c

/-- initBuffer from buffer.c. -/
def initBuffer : Buffer :=
  { content := [], length := 0, capacity := MAX_BUFFER }

/-- appendToBuffer from buffer.c: a SINGLE capacity doubling when
`length + len >= capacity`, then strcpy at offset `length`. -/
def appendToBuffer (b : Buffer) (s : List Char) : Buffer :=
  let len := s.length
  let cap := if b.length + len ≥ b.capacity then 2 * b.capacity else b.capacity
  { content := b.content.take b.length ++ s, length := b.length + len, capacity := cap }

/-- insertIntoBuffer from buffer.c: a single capacity doubling when
`length + 1 >= capacity`, then memmove of the tail one slot right. -/
def insertIntoBuffer (b : Buffer) (pos : Nat) (ch : Char) : Buffer :=
  let cap := if b.length + 1 ≥ b.capacity then 2 * b.capacity else b.capacity
  { content := b.content.take pos ++ ch :: (b.content.drop pos).take (b.length - pos),
    length := b.length + 1, capacity := cap }

/-- deleteFromBuffer from buffer.c: guarded by `pos < length`. -/
def deleteFromBuffer (b : Buffer) (pos : Nat) : Buffer :=
  if pos < b.length then
    { content := b.content.take pos ++ (b.content.drop (pos + 1)).take (b.length - (pos + 1)),
      length := b.length - 1, capacity := b.capacity }
  else b

/-- A sequence element for buffer workloads: one appendToBuffer or one
insertIntoBuffer call. -/
inductive BufOp where
  | app (s : List Char)
  | ins (pos : Nat) (ch : Char)

/-- Run a sequence of appendToBuffer/insertIntoBuffer calls. -/
def runBuf (b : Buffer) : List BufOp → Buffer
  | [] => b
  | BufOp.app s :: ops => runBuf (appendToBuffer b s) ops
  | BufOp.ins p c :: ops => runBuf (insertIntoBuffer b p c) ops

/-- moveCursor from editor_ops.c (identical in both variants); `cols` and
`lines` are the ncurses COLS and LINES globals. -/
def moveCursor (cols lines : Int) (dx dy : Int) (c : Cursor) : Cursor :=
  let x1 := c.x + dx
  let y1 := c.y + dy
  let x2 := if x1 < 0 then 0 else x1
  let y2 := if y1 < 0 then 0 else y1
  let p := if x2 ≥ cols then ((0 : Int), y2 + 1) else (x2, y2)
  let y4 := if p.2 ≥ lines - STATUS_HEIGHT then lines - STATUS_HEIGHT - 1 else p.2
  { x := p.1, y := y4 }

/-- The raw cursor-to-offset computation `cursor.y * COLS + cursor.x`. -/
def rawOff (cols : Int) (st : EditorState) : Int :=
  st.cursor.y * cols + st.cursor.x

/-- deleteChar from c-implementation/editor_ops.c: clamps the offset into
`[0, length]`, acts only when the clamped offset and the length are positive. -/
def deleteChar (cols lines : Int) (st : EditorState) : EditorState :=
  let pos0 := rawOff cols st
  let pos1 := if pos0 < 0 then 0 else pos0
  let pos := if pos1 > (st.buffer.length : Int) then (st.buffer.length : Int) else pos1
  if pos > 0 ∧ st.buffer.length > 0 then
    { st with cursor := moveCursor cols lines (-1) 0 st.cursor,
              buffer := deleteFromBuffer st.buffer (pos - 1).toNat }
  else st

/-- Selection normalization of c-implementation/editor_ops.c: swap so
start ≤ end, clamp start to ≥ 0 and end to ≤ length. -/
def normPair (len : Nat) (start stop : Int) : Int × Int :=
  let p := if start > stop then (stop, start) else (start, stop)
  let s := if p.1 < 0 then 0 else p.1
  let e := if p.2 > (len : Int) then (len : Int) else p.2
  (s, e)

/-- copySelection from c-implementation/editor_ops.c: normalizes and clamps,
then copies the span into the clipboard only when `0 < len < MAX_BUFFER`. -/
def copySelection (st : EditorState) (start stop : Int) : EditorState :=
  let p := normPair st.buffer.length start stop
  let L := p.2 - p.1
  if 0 < L ∧ L < (MAX_BUFFER : Int) then
    { st with clipboard := (st.buffer.content.drop p.1.toNat).take L.toNat }
  else st

/-- cutSelection from c-implementation/editor_ops.c: normalizes and clamps,
calls copySelection on the clamped span, then removes the span when non-empty. -/
def cutSelection (st : EditorState) (start stop : Int) : EditorState :=
  let p := normPair st.buffer.length start stop
  let st1 := copySelection st p.1 p.2
  let L := p.2 - p.1
  if 0 < L then
    { st1 with buffer :=
        { content := st1.buffer.content.take p.1.toNat ++
            (st1.buffer.content.drop p.2.toNat).take (st1.buffer.length - p.2.toNat),
          length := st1.buffer.length - L.toNat,
          capacity := st1.buffer.capacity } }
  else st1

/-- The paste insertion offset of c-implementation/editor_ops.c:
`cursor.y * COLS + cursor.x` clamped into `[0, length]`. -/
def pasteOffset (cols : Int) (st : EditorState) : Nat :=
  let pos0 := rawOff cols st
  let pos1 := if pos0 < 0 then 0 else pos0
  (if pos1 > (st.buffer.length : Int) then (st.buffer.length : Int) else pos1).toNat

/-- pasteAtCursor from c-implementation/editor_ops.c: when the clipboard is
non-empty, grows capacity by a doubling loop and inserts the clipboard at
the clamped cursor offset. -/
def pasteAtCursor (cols : Int) (st : EditorState) : EditorState :=
  let n := st.clipboard.length
  if 0 < n then
    let pos := pasteOffset cols st
    let cap := if st.buffer.length + n + 1 ≥ st.buffer.capacity then
        growCap (st.buffer.length + n + 1) st.buffer.capacity
      else st.buffer.capacity
    { st with buffer :=
        { content := st.buffer.content.take pos ++ st.clipboard ++
            (st.buffer.content.drop pos).take (st.buffer.length - pos),
          length := st.buffer.length + n, capacity := cap } }
  else st

namespace Src

/-- deleteChar from src/editor_ops.c: no clamping of the offset and no check
of the buffer length, only `pos > 0`. -/
def deleteChar (cols lines : Int) (st : EditorState) : EditorState :=
  let pos := rawOff cols st
  if pos > 0 then
    { st with cursor := moveCursor cols lines (-1) 0 st.cursor,
              buffer := deleteFromBuffer st.buffer (pos - 1).toNat }
  else st

/-- copySelection from src/editor_ops.c: no normalization or clamping, copies
when `0 < end - start < MAX_BUFFER`. -/
def copySelection (st : EditorState) (start stop : Int) : EditorState :=
  let L := stop - start
  if 0 < L ∧ L < (MAX_BUFFER : Int) then
    { st with clipboard := (st.buffer.content.drop start.toNat).take L.toNat }
  else st

end Src

/-- saveUndoState from undo.c: pushes a (truncated) snapshot and clears the
redo stack, but ONLY while the undo stack is below MAX_HISTORY; at full
depth the call is a complete no-op. -/
def saveUndoState (st : EditorState) : EditorState :=
  if st.undoStack.length < MAX_HISTORY then
    { st with undoStack := snap st.buffer.content :: st.undoStack, redoStack := [] }
  else st

/-- undo from undo.c: pushes the current (truncated) content on the redo
stack, pops the undo stack into the buffer, growing capacity as needed. -/
def undo (st : EditorState) : EditorState :=
  match st.undoStack with
  | [] => st
  | prev :: rest =>
    let cap := if prev.length ≥ st.buffer.capacity then
        growCap (prev.length + 1) st.buffer.capacity
      else st.buffer.capacity
    { st with buffer := { content := prev, length := prev.length, capacity := cap },
              undoStack := rest,
              redoStack := snap st.buffer.content :: st.redoStack }

/-- redo from undo.c: symmetric to undo. -/
def redo (st : EditorState) : EditorState :=
  match st.redoStack with
  | [] => st
  | next :: rest =>
    let cap := if next.length ≥ st.buffer.capacity then
        growCap (next.length + 1) st.buffer.capacity
      else st.buffer.capacity
    { st with buffer := { content := next, length := next.length, capacity := cap },
              redoStack := rest,
              undoStack := snap st.buffer.content :: st.undoStack }

/-- An arbitrary buffer edit that does not touch the history stacks: every
editor operation (insertChar, deleteChar, cutSelection, pasteAtCursor,
appendToBuffer during load) changes only the buffer, cursor, scroll offset
and clipboard, never the static stacks of undo.c.  This step replaces the
buffer content (keeping length = content length, as all operations do). -/
def editContent (c : List Char) (st : EditorState) : EditorState :=
  { st with buffer := { content := c, length := c.length, capacity := st.buffer.capacity } }

/-- An arbitrary non-history step: new buffer, cursor, scroll and clipboard. -/
def editFull (c : List Char) (k : Nat) (cur : Cursor) (so : Int) (clip : List Char)
    (st : EditorState) : EditorState :=
  { buffer := { content := c, length := c.length, capacity := k },
    cursor := cur, scroll_offset := so, clipboard := clip,
    undoStack := st.undoStack, redoStack := st.redoStack }

/-- Session start: initBuffer-style buffer with given content and capacity,
cursor at the origin, empty clipboard, and initUndoSystem stacks. -/
def initES (c : List Char) (k : Nat) : EditorState :=
  { buffer := { content := c, length := c.length, capacity := k },
    cursor := { x := 0, y := 0 }, scroll_offset := 0, clipboard := [],
    undoStack := [], redoStack := [] }

/-- The states of the history system reachable in a session: from session
start by saveUndoState, undo, redo, and arbitrary non-history steps. -/
inductive Reach : EditorState → Prop where
  | init (c : List Char) (k : Nat) : Reach (initES c k)
  | save {st : EditorState} : Reach st → Reach (saveUndoState st)
  | undoStep {st : EditorState} : Reach st → Reach (undo st)
  | redoStep {st : EditorState} : Reach st → Reach (redo st)
  | edit {st : EditorState} (c : List Char) (k : Nat) (cur : Cursor) (so : Int)
      (clip : List Char) : Reach st → Reach (editFull c k cur so clip st)

/-- Apply `undo` n times. -/
def undoN : Nat → EditorState → EditorState
  | 0, st => st
  | n + 1, st => undoN n (undo st)

/-- Run a list of snapshot-then-edit pairs: each step is
`saveUndoState` followed by an arbitrary content edit. -/
def runPairs (st : EditorState) : List (List Char) → EditorState
  | [] => st
  | c :: cs => runPairs (editContent c (saveUndoState st)) cs

/-- The invariant of the history stacks maintained by every session step. -/
def HistInv (st : EditorState) : Prop :=
  st.undoStack.length ≤ MAX_HISTORY ∧
    (st.redoStack ≠ [] → st.undoStack.length + st.redoStack.length ≤ MAX_HISTORY)

/-- The length of the normalized, clamped span used by copySelection and
cutSelection. -/
def spanLenN (st : EditorState) (start stop : Int) : Nat :=
  ((normPair st.buffer.length start stop).2 - (normPair st.buffer.length start stop).1).toNat

/-- A two-character buffer with a previously filled clipboard and the
cursor at column 1: input for the empty-span cut-then-paste scenario. -/
def c3state : EditorState :=
  { buffer := { content := ['a', 'b'], length := 2, capacity := 10 },
    cursor := { x := 1, y := 0 }, scroll_offset := 0, clipboard := ['x'],
    undoStack := [], redoStack := [] }

/-- A three-character buffer with the cursor at column 1: input for the
cut-then-paste round trip on the span [1, 2). -/
def c3wstate : EditorState :=
  { buffer := { content := ['a', 'b', 'c'], length := 3, capacity := 10 },
    cursor := { x := 1, y := 0 }, scroll_offset := 0, clipboard := [],
    undoStack := [], redoStack := [] }

/-- A buffer holding one million characters, with a previously filled
clipboard: input for the oversized-span cut behaviour. -/
def c9state : EditorState :=
  { buffer := { content := List.replicate 1000000 'a', length := 1000000, capacity := 2000000 },
    cursor := { x := 0, y := 0 }, scroll_offset := 0, clipboard := ['z'],
    undoStack := [], redoStack := [] }

/-! ## Helper lemmas -/

theorem undo_nil {st : EditorState} (h : st.undoStack = []) : undo st = st := by
  simp only [undo, h]

theorem undo_cons {st : EditorState} {a : List Char} {l : List (List Char)}
    (h : st.undoStack = a :: l) :
    undo st = { st with
      buffer := Buffer.mk a a.length
        (if a.length ≥ st.buffer.capacity then growCap (a.length + 1) st.buffer.capacity
         else st.buffer.capacity),
      undoStack := l, redoStack := snap st.buffer.content :: st.redoStack } := by
  simp only [undo, h]

theorem redo_nil {st : EditorState} (h : st.redoStack = []) : redo st = st := by
  simp only [redo, h]

theorem redo_cons {st : EditorState} {a : List Char} {l : List (List Char)}
    (h : st.redoStack = a :: l) :
    redo st = { st with
      buffer := Buffer.mk a a.length
        (if a.length ≥ st.buffer.capacity then growCap (a.length + 1) st.buffer.capacity
         else st.buffer.capacity),
      redoStack := l, undoStack := snap st.buffer.content :: st.undoStack } := by
  simp only [redo, h]

theorem save_push {st : EditorState} (h : st.undoStack.length < MAX_HISTORY) :
    saveUndoState st =
      { st with undoStack := snap st.buffer.content :: st.undoStack, redoStack := [] } := by
  simp only [saveUndoState, if_pos h]

theorem save_full {st : EditorState} (h : ¬ st.undoStack.length < MAX_HISTORY) :
    saveUndoState st = st := by
  simp only [saveUndoState, if_neg h]

theorem undo_frame (st : EditorState) :
    (undo st).cursor = st.cursor ∧ (undo st).scroll_offset = st.scroll_offset := by
  unfold undo; split <;> simp

theorem redo_frame (st : EditorState) :
    (redo st).cursor = st.cursor ∧ (redo st).scroll_offset = st.scroll_offset := by
  unfold redo; split <;> simp

theorem normPair_bounds (len : Nat) (s e : Int) :
    0 ≤ (normPair len s e).1 ∧ (normPair len s e).2 ≤ (len : Int) := by
  unfold normPair
  split <;> dsimp only <;> constructor <;> split <;> omega

theorem normPair_id (len : Nat) (a b : Int) (h0 : 0 ≤ a) (h1 : a ≤ b) (h2 : b ≤ (len : Int)) :
    normPair len a b = (a, b) := by
  unfold normPair
  rw [if_neg (by omega)]
  dsimp only
  rw [if_neg (by omega), if_neg (by omega)]

theorem appendToBuffer_big (s : List Char) (hs : s.length = 2000000) :
    appendToBuffer initBuffer s =
      { content := s, length := 2000000, capacity := 2 * MAX_BUFFER } := by
  simp only [appendToBuffer, initBuffer, MAX_BUFFER, hs, List.take_nil, List.nil_append,
    Nat.zero_add]
  norm_num

/-! ## Claim theorems -/

/-- C4: appendToBuffer writes the text at the end and sets the new length to
old length plus text length, but its capacity growth is a SINGLE doubling,
not repeated doubling until sufficient: appending two million characters to
a fresh buffer leaves capacity 2000000, which is not greater than the new
length, so growth stops while still insufficient. -/
theorem c4_append_single_doubling :
    (appendToBuffer initBuffer (List.replicate 2000000 'a')).content =
      List.replicate 2000000 'a' ∧
    (appendToBuffer initBuffer (List.replicate 2000000 'a')).length = 2000000 ∧
    (appendToBuffer initBuffer (List.replicate 2000000 'a')).capacity = 2 * MAX_BUFFER ∧
    ¬ (appendToBuffer initBuffer (List.replicate 2000000 'a')).length <
        (appendToBuffer initBuffer (List.replicate 2000000 'a')).capacity := by
  rw [appendToBuffer_big _ (List.length_replicate _ _)]
  norm_num [MAX_BUFFER]

/-- C5: the capacity stays a power-of-two multiple of the initial capacity,
but it is NOT always greater than the length: after the single append of two
million characters the capacity equals the length, violating the invariant
claimed for every sequence of appends and inserts. -/
theorem c5_capacity_invariant_fails :
    (runBuf initBuffer [BufOp.app (List.replicate 2000000 'a')]).capacity =
      2 ^ 1 * MAX_BUFFER ∧
    ¬ (runBuf initBuffer [BufOp.app (List.replicate 2000000 'a')]).length <
        (runBuf initBuffer [BufOp.app (List.replicate 2000000 'a')]).capacity := by
  show (appendToBuffer initBuffer (List.replicate 2000000 'a')).capacity = _ ∧
    ¬ (appendToBuffer initBuffer (List.replicate 2000000 'a')).length <
        (appendToBuffer initBuffer (List.replicate 2000000 'a')).capacity
  rw [appendToBuffer_big _ (List.length_replicate _ _)]
  norm_num [MAX_BUFFER]

/-- C7: copySelection, in both repository variants, never mutates the
buffer: content, length and capacity are all unchanged for every state and
every pair of offsets. -/
theorem c7_copy_never_mutates (st : EditorState) (start stop : Int) :
    (copySelection st start stop).buffer = st.buffer ∧
    (Src.copySelection st start stop).buffer = st.buffer := by
  constructor
  · simp only [copySelection]; split <;> rfl
  · simp only [Src.copySelection]; split <;> rfl

/-- C10: undo and redo change at most the buffer; the cursor position and
the scroll offset are unchanged by every undo and every redo call. -/
theorem c10_undo_redo_frame (st : EditorState) :
    (undo st).cursor = st.cursor ∧ (undo st).scroll_offset = st.scroll_offset ∧
    (redo st).cursor = st.cursor ∧ (redo st).scroll_offset = st.scroll_offset :=
  ⟨(undo_frame st).1, (undo_frame st).2, (redo_frame st).1, (redo_frame st).2⟩

/-- C8 counterexample: in the src variant of deleteChar, an empty buffer is
NOT a complete no-op: with the cursor at column 1 the computed offset is
positive, so the cursor still moves left even though the buffer is empty. -/
theorem c8_counterexample :
    ({ initES [] MAX_BUFFER with cursor := { x := 1, y := 0 } } : EditorState).buffer.length
        = 0 ∧
    (Src.deleteChar 80 24
        { initES [] MAX_BUFFER with cursor := { x := 1, y := 0 } }).cursor ≠
      ({ initES [] MAX_BUFFER with cursor := { x := 1, y := 0 } } : EditorState).cursor := by
  decide

/-- C8 amended: a computed offset of at most 0 makes deleteChar a complete
no-op in both variants; an empty buffer makes the c-implementation
deleteChar (which clamps the offset into [0, length]) a complete no-op,
while the src variant then still leaves the buffer itself unchanged (though
it may move the cursor). -/
theorem c8_delete_noop (cols lines : Int) (st : EditorState) :
    ((rawOff cols st ≤ 0 ∨ st.buffer.length = 0) → deleteChar cols lines st = st) ∧
    (rawOff cols st ≤ 0 → Src.deleteChar cols lines st = st) ∧
    (st.buffer.length = 0 → (Src.deleteChar cols lines st).buffer = st.buffer) := by
  refine ⟨?_, ?_, ?_⟩
  · intro h
    unfold deleteChar
    rw [if_neg]
    split <;> split <;> omega
  · intro h
    unfold Src.deleteChar
    rw [if_neg (by omega)]
  · intro h
    simp only [Src.deleteChar]
    split
    · simp [deleteFromBuffer, h]
    · rfl

/-- C8 witness: at the initial state with content "a" and the cursor at the
origin, the offset is 0 and both variants leave the state unchanged. -/
theorem c8_delete_noop_witness :
    deleteChar 80 24 (initES ['a'] 10) = initES ['a'] 10 ∧
    Src.deleteChar 80 24 (initES ['a'] 10) = initES ['a'] 10 :=
  ⟨(c8_delete_noop 80 24 (initES ['a'] 10)).1 (Or.inl (by decide)),
   (c8_delete_noop 80 24 (initES ['a'] 10)).2.1 (by decide)⟩

/-- C9: when the clamped, normalized span is at least MAX_BUFFER long,
cutSelection still removes the span (the length drops by the span length)
but copySelection's guard rejects the span, so the clipboard keeps its
previous contents and the removed text cannot be recovered by pasting. -/
theorem c9_oversized_cut (st : EditorState) (start stop : Int)
    (hbig : MAX_BUFFER ≤ spanLenN st start stop) :
    (cutSelection st start stop).buffer.length =
      st.buffer.length - spanLenN st start stop ∧
    (cutSelection st start stop).clipboard = st.clipboard := by
  have hb := normPair_bounds st.buffer.length start stop
  have hM : MAX_BUFFER = 1000000 := rfl
  unfold spanLenN at hbig ⊢
  have hL : (1000000 : Int) ≤
      (normPair st.buffer.length start stop).2 - (normPair st.buffer.length start stop).1 := by
    omega
  have hcopy : copySelection st (normPair st.buffer.length start stop).1
      (normPair st.buffer.length start stop).2 = st := by
    simp only [copySelection]
    rw [normPair_id st.buffer.length _ _ hb.1 (by omega) hb.2]
    dsimp only
    rw [if_neg]
    intro hcon
    rw [hM] at hcon
    omega
  simp only [cutSelection]
  rw [hcopy, if_pos (by omega :
    (0 : Int) < (normPair st.buffer.length start stop).2 -
      (normPair st.buffer.length start stop).1)]
  exact ⟨rfl, rfl⟩

/-- C9 witness: a million-character buffer with clipboard "z"; cutting the
full span empties the buffer but leaves the clipboard holding "z". -/
theorem c9_oversized_cut_witness :
    MAX_BUFFER ≤ spanLenN c9state 0 1000000 ∧
    ((cutSelection c9state 0 1000000).buffer.length =
        c9state.buffer.length - spanLenN c9state 0 1000000 ∧
      (cutSelection c9state 0 1000000).clipboard = c9state.clipboard) :=
  ⟨by decide, c9_oversized_cut c9state 0 1000000 (by decide)⟩


theorem reach_inv {st : EditorState} (h : Reach st) : HistInv st := by
  induction h with
  | init c k =>
    refine ⟨by simp [initES, MAX_HISTORY], ?_⟩
    intro hne
    exact absurd rfl hne
  | save hr ih =>
    rename_i s
    obtain ⟨ih1, ih2⟩ := ih
    by_cases hc : s.undoStack.length < MAX_HISTORY
    · rw [save_push hc]
      refine ⟨?_, ?_⟩
      · simp only [List.length_cons]
        omega
      · intro hne
        exact absurd rfl hne
    · rw [save_full hc]
      exact ⟨ih1, ih2⟩
  | undoStep hr ih =>
    rename_i s
    obtain ⟨ih1, ih2⟩ := ih
    cases hs : s.undoStack with
    | nil =>
      rw [undo_nil hs]
      exact ⟨ih1, ih2⟩
    | cons a l =>
      rw [undo_cons hs]
      rw [hs] at ih1 ih2
      have h1 : l.length + 1 ≤ MAX_HISTORY := by simpa using ih1
      refine ⟨?_, ?_⟩
      · dsimp only
        omega
      · intro hne
        dsimp only
        simp only [List.length_cons]
        by_cases hr0 : s.redoStack = []
        · rw [hr0]
          simp only [List.length_nil]
          omega
        · have h2 := ih2 hr0
          simp only [List.length_cons] at h2
          omega
  | redoStep hr ih =>
    rename_i s
    obtain ⟨ih1, ih2⟩ := ih
    cases hs : s.redoStack with
    | nil =>
      rw [redo_nil hs]
      exact ⟨ih1, ih2⟩
    | cons a l =>
      rw [redo_cons hs]
      have h2 := ih2 (by rw [hs]; simp)
      rw [hs] at h2
      simp only [List.length_cons] at h2
      refine ⟨?_, ?_⟩
      · dsimp only
        simp only [List.length_cons]
        omega
      · intro hne
        dsimp only
        simp only [List.length_cons]
        omega
  | edit c k cur so clip hr ih =>
    exact ⟨ih.1, fun hne => ih.2 hne⟩

/-- C1: on every reachable state, every saveUndoState call ends with an
empty redo stack (when the undo stack is at maximum depth the call is a
no-op, but the redo stack is then already empty); edits never touch the
redo stack, redo only shrinks it, and the sequence undo; snapshot-plus-edit;
redo leaves the buffer unchanged by the redo, because the snapshot after an
undo always clears the redo stack. -/
theorem c1_redo_discipline (st : EditorState) (c : List Char) (h : Reach st) :
    (saveUndoState st).redoStack = [] ∧
    (editContent c st).redoStack = st.redoStack ∧
    (redo st).redoStack.length ≤ st.redoStack.length ∧
    (redo (editContent c (saveUndoState (undo st)))).buffer =
      (editContent c (saveUndoState (undo st))).buffer := by
  obtain ⟨h1, h2⟩ := reach_inv h
  refine ⟨?_, rfl, ?_, ?_⟩
  · by_cases hc : st.undoStack.length < MAX_HISTORY
    · rw [save_push hc]
    · rw [save_full hc]
      cases hrs : st.redoStack with
      | nil => rfl
      | cons b bs =>
        exfalso
        have := h2 (by rw [hrs]; simp)
        rw [hrs] at this
        simp only [List.length_cons] at this
        omega
  · cases hrs : st.redoStack with
    | nil => rw [redo_nil hrs, hrs]
    | cons b bs =>
      rw [redo_cons hrs]
      dsimp only
      simp only [List.length_cons]
      omega
  · have hlen : (undo st).undoStack.length < MAX_HISTORY := by
      cases hs : st.undoStack with
      | nil =>
        rw [undo_nil hs, hs]
        simp [MAX_HISTORY]
      | cons a l =>
        rw [undo_cons hs]
        rw [hs] at h1
        simp only [List.length_cons] at h1
        dsimp only
        omega
    have hred : (editContent c (saveUndoState (undo st))).redoStack = [] := by
      rw [save_push hlen]
      rfl
    rw [redo_nil hred]

/-- C1 witness: the discipline holds at a concrete initial session state. -/
theorem c1_redo_discipline_witness :
    Reach (initES ['a'] 10) ∧
    ((saveUndoState (initES ['a'] 10)).redoStack = [] ∧
      (editContent ['b'] (initES ['a'] 10)).redoStack = (initES ['a'] 10).redoStack ∧
      (redo (initES ['a'] 10)).redoStack.length ≤ (initES ['a'] 10).redoStack.length ∧
      (redo (editContent ['b'] (saveUndoState (undo (initES ['a'] 10))))).buffer =
        (editContent ['b'] (saveUndoState (undo (initES ['a'] 10)))).buffer) :=
  ⟨Reach.init ['a'] 10, c1_redo_discipline (initES ['a'] 10) ['b'] (Reach.init ['a'] 10)⟩

theorem undoN_succ (n : Nat) : ∀ st : EditorState, undoN (n + 1) st = undo (undoN n st) := by
  induction n with
  | zero => intro st; rfl
  | succ n ih =>
    intro st
    show undoN (n + 1) (undo st) = undo (undoN (n + 1) st)
    rw [ih]
    rfl

theorem runPairs_restore (cs : List (List Char)) : ∀ st : EditorState,
    st.undoStack.length + cs.length ≤ MAX_HISTORY →
    (undoN cs.length (runPairs st cs)).undoStack = st.undoStack ∧
    (undoN cs.length (runPairs st cs)).buffer.content =
      (if cs = [] then st.buffer.content else snap st.buffer.content) := by
  induction cs with
  | nil =>
    intro st h
    refine ⟨rfl, ?_⟩
    rw [if_pos rfl]
    rfl
  | cons c cs ih =>
    intro st h
    simp only [List.length_cons] at h
    have hlt : st.undoStack.length < MAX_HISTORY := by omega
    have hs1 : (editContent c (saveUndoState st)).undoStack =
        snap st.buffer.content :: st.undoStack := by
      show (saveUndoState st).undoStack = _
      rw [save_push hlt]
    have hlen1 : (editContent c (saveUndoState st)).undoStack.length + cs.length ≤
        MAX_HISTORY := by
      rw [hs1]
      simp only [List.length_cons]
      omega
    obtain ⟨ihs, ihc⟩ := ih (editContent c (saveUndoState st)) hlen1
    have hstep : runPairs st (c :: cs) = runPairs (editContent c (saveUndoState st)) cs := rfl
    have hcons : (undoN cs.length (runPairs (editContent c (saveUndoState st)) cs)).undoStack =
        snap st.buffer.content :: st.undoStack := by rw [ihs, hs1]
    constructor
    · rw [show (c :: cs).length = cs.length + 1 from rfl, hstep, undoN_succ, undo_cons hcons]
    · rw [show (c :: cs).length = cs.length + 1 from rfl, hstep, undoN_succ, undo_cons hcons]
      simp

/-- C2 amended: for every starting content SHORTER than MAX_BUFFER (the
snapshot capacity), performing N ≤ MAX_HISTORY snapshot-preceded edits and
then N undo calls restores the original content, and one further undo call
is a complete no-op. -/
theorem c2_undo_restores (c0 : List Char) (k : Nat) (cs : List (List Char))
    (h0 : c0.length < MAX_BUFFER) (hN : cs.length ≤ MAX_HISTORY) :
    (undoN cs.length (runPairs (initES c0 k) cs)).buffer.content = c0 ∧
    undo (undoN cs.length (runPairs (initES c0 k) cs)) =
      undoN cs.length (runPairs (initES c0 k) cs) := by
  obtain ⟨hstk, hcnt⟩ := runPairs_restore cs (initES c0 k) (by
    have hz : (initES c0 k).undoStack.length = 0 := rfl
    rw [hz]
    omega)
  have hsnap : snap c0 = c0 := by
    unfold snap
    rw [if_neg (by omega)]
  constructor
  · rw [hcnt]
    by_cases hc : cs = []
    · rw [if_pos hc]
      rfl
    · rw [if_neg hc]
      exact hsnap
  · apply undo_nil
    rw [hstk]
    rfl

/-- C2 witness: two snapshot-preceded edits from content "a", then two
undo calls, restore "a"; a third undo changes nothing. -/
theorem c2_undo_restores_witness :
    (['a'] : List Char).length < MAX_BUFFER ∧
    ([['b'], ['c']] : List (List Char)).length ≤ MAX_HISTORY ∧
    ((undoN [['b'], ['c']].length (runPairs (initES ['a'] 7) [['b'], ['c']])).buffer.content
        = ['a'] ∧
      undo (undoN [['b'], ['c']].length (runPairs (initES ['a'] 7) [['b'], ['c']])) =
        undoN [['b'], ['c']].length (runPairs (initES ['a'] 7) [['b'], ['c']])) :=
  ⟨by decide, by decide, c2_undo_restores ['a'] 7 [['b'], ['c']] (by decide) (by decide)⟩

/-- C2 counterexample: for a starting content of exactly MAX_BUFFER
characters the snapshot is truncated to MAX_BUFFER - 1 characters, so one
snapshot-preceded edit followed by one undo does NOT restore the original
content, refuting the claim for EVERY starting buffer content. -/
theorem c2_counterexample :
    (1 : Nat) ≤ MAX_HISTORY ∧
    (undoN 1 (runPairs (initES (List.replicate 1000000 'a') MAX_BUFFER) [[]])).buffer.content ≠
      List.replicate 1000000 'a' := by
  constructor
  · decide
  · have hguard : (initES (List.replicate 1000000 'a') MAX_BUFFER).undoStack.length <
        MAX_HISTORY := by
      decide
    have hstk :
        (editContent [] (saveUndoState (initES (List.replicate 1000000 'a') MAX_BUFFER))).undoStack
          = snap (List.replicate 1000000 'a') :: [] := by
      show (saveUndoState (initES (List.replicate 1000000 'a') MAX_BUFFER)).undoStack = _
      rw [save_push hguard]
      rfl
    have h1 : undoN 1 (runPairs (initES (List.replicate 1000000 'a') MAX_BUFFER) [[]]) =
        undo (editContent [] (saveUndoState (initES (List.replicate 1000000 'a') MAX_BUFFER))) :=
      rfl
    rw [h1, undo_cons hstk]
    dsimp only
    unfold snap
    rw [if_pos (by rw [List.length_replicate]; decide)]
    rw [show MAX_BUFFER = 1000000 from rfl, List.take_replicate]
    intro heq
    have hlen := congrArg List.length heq
    rw [List.length_replicate, List.length_replicate] at hlen
    omega

theorem runPairs_len (cs : List (List Char)) : ∀ st : EditorState,
    st.undoStack.length ≤ MAX_HISTORY →
    (runPairs st cs).undoStack.length = min MAX_HISTORY (st.undoStack.length + cs.length) := by
  induction cs with
  | nil =>
    intro st h
    simp only [runPairs, List.length_nil, Nat.add_zero]
    omega
  | cons c cs ih =>
    intro st h
    have hstep : runPairs st (c :: cs) = runPairs (editContent c (saveUndoState st)) cs := rfl
    by_cases hc : st.undoStack.length < MAX_HISTORY
    · have hs1 : (editContent c (saveUndoState st)).undoStack =
          snap st.buffer.content :: st.undoStack := by
        show (saveUndoState st).undoStack = _
        rw [save_push hc]
      have hrec := ih (editContent c (saveUndoState st)) (by
        rw [hs1]
        simp only [List.length_cons]
        omega)
      rw [hstep, hrec, hs1]
      simp only [List.length_cons]
      omega
    · have hs1 : (editContent c (saveUndoState st)).undoStack = st.undoStack := by
        show (saveUndoState st).undoStack = _
        rw [save_full hc]
      have hrec := ih (editContent c (saveUndoState st)) (by rw [hs1]; exact h)
      rw [hstep, hrec, hs1]
      simp only [List.length_cons]
      omega

theorem runPairs_last (cs : List (List Char)) : ∀ (st : EditorState) (v : List Char),
    st.undoStack.getLast? = some v →
    (runPairs st cs).undoStack.getLast? = some v := by
  induction cs with
  | nil => intro st v h; exact h
  | cons c cs ih =>
    intro st v h
    apply ih
    show (saveUndoState st).undoStack.getLast? = some v
    by_cases hc : st.undoStack.length < MAX_HISTORY
    · rw [save_push hc]
      dsimp only
      cases hs : st.undoStack with
      | nil =>
        rw [hs] at h
        simp at h
      | cons b bs =>
        rw [hs] at h
        rw [List.getLast?_cons_cons]
        exact h
    · rw [save_full hc]
      exact h

theorem undoN_all (l : List (List Char)) : ∀ (st : EditorState) (v : List Char),
    st.undoStack = l → l.getLast? = some v →
    (undoN l.length st).buffer.content = v := by
  induction l with
  | nil =>
    intro st v h hv
    simp at hv
  | cons a t ih =>
    intro st v h hv
    show (undoN t.length (undo st)).buffer.content = v
    cases t with
    | nil =>
      have hva : a = v := by simpa using hv
      show (undo st).buffer.content = v
      rw [undo_cons h]
      exact hva
    | cons b t2 =>
      apply ih (undo st) v
      · rw [undo_cons h]
      · rw [List.getLast?_cons_cons] at hv
        exact hv

/-- C6: more than MAX_HISTORY snapshot-preceded edits never grow the undo
stack beyond MAX_HISTORY entries, and the oldest snapshot stays reachable:
exactly MAX_HISTORY undo calls put the first recorded content (here shorter
than the snapshot capacity, hence recorded exactly) back in the buffer. -/
theorem c6_depth_cap_oldest_reachable (c0 : List Char) (k : Nat) (cs : List (List Char))
    (h0 : c0.length < MAX_BUFFER) (hN : MAX_HISTORY < cs.length) :
    (runPairs (initES c0 k) cs).undoStack.length = MAX_HISTORY ∧
    (undoN MAX_HISTORY (runPairs (initES c0 k) cs)).buffer.content = c0 := by
  cases cs with
  | nil => simp at hN
  | cons c cs =>
    have hM : MAX_HISTORY = 100 := rfl
    have hguard : (initES c0 k).undoStack.length < MAX_HISTORY := by
      show 0 < MAX_HISTORY
      omega
    have hs1 : (editContent c (saveUndoState (initES c0 k))).undoStack = [snap c0] := by
      show (saveUndoState (initES c0 k)).undoStack = _
      rw [save_push hguard]
      rfl
    have hstep : runPairs (initES c0 k) (c :: cs) =
        runPairs (editContent c (saveUndoState (initES c0 k))) cs := rfl
    have hlen := runPairs_len cs (editContent c (saveUndoState (initES c0 k))) (by
      rw [hs1]
      simp only [List.length_cons, List.length_nil]
      omega)
    rw [hs1] at hlen
    simp only [List.length_cons, List.length_nil] at hlen hN
    have hlen' : (runPairs (editContent c (saveUndoState (initES c0 k))) cs).undoStack.length =
        MAX_HISTORY := by
      rw [hlen]
      omega
    have hlast := runPairs_last cs (editContent c (saveUndoState (initES c0 k))) (snap c0) (by
      rw [hs1]
      rfl)
    have hall := undoN_all
      ((runPairs (editContent c (saveUndoState (initES c0 k))) cs).undoStack)
      (runPairs (editContent c (saveUndoState (initES c0 k))) cs) (snap c0) rfl hlast
    rw [hlen'] at hall
    have hsnap : snap c0 = c0 := by
      unfold snap
      rw [if_neg (by omega)]
    refine ⟨?_, ?_⟩
    · rw [hstep]
      exact hlen'
    · rw [hstep, hall]
      exact hsnap

/-- C6 witness: 101 snapshot-preceded edits from content "a", then 100 undo
calls, leave the stack at depth 100 and restore "a". -/
theorem c6_depth_cap_oldest_reachable_witness :
    (['a'] : List Char).length < MAX_BUFFER ∧
    MAX_HISTORY < (List.replicate 101 (['b'] : List Char)).length ∧
    ((runPairs (initES ['a'] 7) (List.replicate 101 ['b'])).undoStack.length = MAX_HISTORY ∧
      (undoN MAX_HISTORY
          (runPairs (initES ['a'] 7) (List.replicate 101 ['b']))).buffer.content = ['a']) :=
  ⟨by decide, by decide,
    c6_depth_cap_oldest_reachable ['a'] 7 (List.replicate 101 ['b']) (by decide) (by decide)⟩

theorem take_mid_drop (c : List Char) (aN bN : Nat) (hab : aN ≤ bN) :
    c.take aN ++ ((c.drop aN).take (bN - aN) ++ c.drop bN) = c := by
  have h2 : (c.drop aN).drop (bN - aN) = c.drop bN := by
    rw [List.drop_drop]
    congr 1
    omega
  calc c.take aN ++ ((c.drop aN).take (bN - aN) ++ c.drop bN)
      = c.take aN ++ ((c.drop aN).take (bN - aN) ++ (c.drop aN).drop (bN - aN)) := by rw [h2]
    _ = c.take aN ++ c.drop aN := by rw [List.take_append_drop]
    _ = c := List.take_append_drop _ _

/-- C3 counterexample: for the empty span [1, 1) cutSelection is a no-op,
but pasteAtCursor then inserts the pre-existing clipboard at the original
start offset, so cut-then-paste does NOT restore the buffer, refuting the
round-trip claim for every span. -/
theorem c3_counterexample :
    pasteOffset 80 (cutSelection c3state 1 1) = 1 ∧
    (pasteAtCursor 80 (cutSelection c3state 1 1)).buffer.content ≠ c3state.buffer.content := by
  decide

/-- C3 amended: for every well-formed buffer and every span whose
normalized, clamped form [s, e) is non-empty and shorter than MAX_BUFFER
(the clipboard capacity), cutSelection followed by pasteAtCursor with the
computed insertion offset equal to s restores the buffer content and length
exactly. -/
theorem c3_cut_paste_roundtrip (st : EditorState) (cols start stop : Int)
    (hwf : st.buffer.length = st.buffer.content.length)
    (hpos : 0 < (normPair st.buffer.length start stop).2 -
        (normPair st.buffer.length start stop).1)
    (hlt : (normPair st.buffer.length start stop).2 -
        (normPair st.buffer.length start stop).1 < (MAX_BUFFER : Int))
    (hoff : pasteOffset cols (cutSelection st start stop) =
        (normPair st.buffer.length start stop).1.toNat) :
    (pasteAtCursor cols (cutSelection st start stop)).buffer.content = st.buffer.content ∧
    (pasteAtCursor cols (cutSelection st start stop)).buffer.length = st.buffer.length := by
  obtain ⟨A, B, hAB⟩ : ∃ A B, normPair st.buffer.length start stop = (A, B) := ⟨_, _, rfl⟩
  rw [hAB] at hpos hlt hoff
  dsimp only at hpos hlt hoff
  obtain ⟨h0a, hble⟩ := normPair_bounds st.buffer.length start stop
  rw [hAB] at h0a hble
  dsimp only at h0a hble
  have hcopy : copySelection st A B =
      { st with clipboard := (st.buffer.content.drop A.toNat).take (B - A).toNat } := by
    simp only [copySelection]
    rw [normPair_id st.buffer.length A B h0a (by omega) hble]
    dsimp only
    rw [if_pos ⟨hpos, hlt⟩]
  have hcut : cutSelection st start stop =
      { st with
        clipboard := (st.buffer.content.drop A.toNat).take (B - A).toNat,
        buffer := Buffer.mk
          (st.buffer.content.take A.toNat ++
            (st.buffer.content.drop B.toNat).take (st.buffer.length - B.toNat))
          (st.buffer.length - (B - A).toNat)
          st.buffer.capacity } := by
    simp only [cutSelection]
    rw [hAB]
    dsimp only
    rw [hcopy]
    rw [if_pos (show (0 : Int) < B - A by omega)]
  have hcliplen : ((st.buffer.content.drop A.toNat).take (B - A).toNat).length =
      (B - A).toNat := by
    rw [List.length_take, List.length_drop]
    omega
  rw [hcut] at hoff
  rw [hcut]
  simp only [pasteAtCursor]
  rw [if_pos (by rw [hcliplen]; omega)]
  rw [hoff]
  dsimp only
  refine ⟨?_, ?_⟩
  · have hd : (st.buffer.content.drop B.toNat).take (st.buffer.length - B.toNat) =
        st.buffer.content.drop B.toNat := by
      apply List.take_of_length_le
      rw [List.length_drop]
      omega
    rw [hd]
    have htl : (st.buffer.content.take A.toNat).length = A.toNat := by
      rw [List.length_take]
      omega
    rw [List.take_left' htl, List.drop_left' htl]
    have h2 : (st.buffer.content.drop B.toNat).take
        (st.buffer.length - (B - A).toNat - A.toNat) =
        st.buffer.content.drop B.toNat := by
      apply List.take_of_length_le
      rw [List.length_drop]
      omega
    rw [h2]
    have hLN : (B - A).toNat = B.toNat - A.toNat := by omega
    rw [hLN, List.append_assoc]
    exact take_mid_drop st.buffer.content A.toNat B.toNat (by omega)
  · rw [hcliplen]
    omega

/-- C3 witness: on the buffer "abc" with the cursor at column 1, cutting
the span [1, 2) and pasting at offset 1 restores "abc". -/
theorem c3_cut_paste_roundtrip_witness :
    (c3wstate.buffer.length = c3wstate.buffer.content.length ∧
      0 < (normPair c3wstate.buffer.length 1 2).2 - (normPair c3wstate.buffer.length 1 2).1 ∧
      (normPair c3wstate.buffer.length 1 2).2 - (normPair c3wstate.buffer.length 1 2).1 <
        (MAX_BUFFER : Int) ∧
      pasteOffset 80 (cutSelection c3wstate 1 2) =
        (normPair c3wstate.buffer.length 1 2).1.toNat) ∧
    ((pasteAtCursor 80 (cutSelection c3wstate 1 2)).buffer.content =
        c3wstate.buffer.content ∧
      (pasteAtCursor 80 (cutSelection c3wstate 1 2)).buffer.length =
        c3wstate.buffer.length) :=
  ⟨⟨by decide, by decide, by decide, by decide⟩,
    c3_cut_paste_roundtrip c3wstate 80 1 2 (by decide) (by decide) (by decide) (by decide)⟩
